import Mathlib

/-!
# Verification of the rag-multimodal core against its specification

Shallow embedding of the repository's core components:
similarity functions (`backend/domain/rag/retrieval/similarity.py`),
the MaxSim reranker (`backend/domain/rag/retrieval/reranker.py`),
the retrieval service (`backend/services/retrieval_service.py`),
the Groq LLM client message formatting (`backend/domain/agentic/llm/groq_client.py`),
the agent orchestrator loop (`backend/domain/agentic/orchestrator.py`),
and the Jina embedding client (`backend/domain/rag/embedding/client.py`).

Vector arithmetic is modelled over the real numbers (the source uses
floating-point numpy operations); external collaborators (vector stores,
network, tool execution, the LLM) are modelled as explicit oracles passed
as function arguments, so every code path of the embedded functions is the
direct image of a path in the source.
-/

namespace RagMM

/-! ## Similarity functions (`similarity.py`) -/

/-- The `1e-8` additive epsilon used by `maxsim_score` to avoid division by zero. -/
noncomputable def simEps : ℝ := 1 / 100000000

/-- Dot product of two vectors represented as lists (`np.dot` on equal-length rows). -/
noncomputable def dotL (u v : List ℝ) : ℝ := (List.zipWith (· * ·) u v).sum

/-- Euclidean norm of a vector (`np.linalg.norm`). -/
noncomputable def normL (v : List ℝ) : ℝ := Real.sqrt ((v.map (fun x => x ^ 2)).sum)

/-- Normalization step of `maxsim_score`: `arr / (norm + 1e-8)` applied elementwise. -/
noncomputable def normalizeVec (v : List ℝ) : List ℝ :=
  v.map (fun x => x / (normL v + simEps))

/-- One entry of the similarity matrix of `maxsim_score`: the dot product of the
two epsilon-normalized vectors (the code normalizes both arrays and multiplies). -/
noncomputable def simEntry (q c : List ℝ) : ℝ := dotL (normalizeVec q) (normalizeVec c)

/-- One row reduction of `maxsim_score`: `np.max(similarity_matrix, axis=1)` for the
row of query token `q`, i.e. the maximum of `simEntry q c` over all chunk tokens.
Empty chunk lists do not reach this point in `maxsim_score`. -/
noncomputable def rowMax (q : List ℝ) : List (List ℝ) → ℝ
  | [] => 0
  | c :: cs => cs.foldl (fun m c2 => max m (simEntry q c2)) (simEntry q c)

/-- Embedding of `maxsim_score(query_multi_vectors, chunk_multi_vectors)` from `similarity.py`:
returns `0.0` when either sequence is empty, otherwise the sum over query tokens of
the per-row maxima of the pairwise similarity matrix. -/
noncomputable def maxsim_score (Q C : List (List ℝ)) : ℝ :=
  match Q, C with
  | [], _ => 0
  | _ :: _, [] => 0
  | q :: qs, c :: cs => ((q :: qs).map (fun qv => rowMax qv (c :: cs))).sum

/-- Folding `max m (simEntry q ·)` over a list, with the accumulator `max a b`,
pulls `a` out of the fold. -/
theorem foldl_max_acc (q : List ℝ) (l : List (List ℝ)) :
    ∀ a b : ℝ, l.foldl (fun m c2 => max m (simEntry q c2)) (max a b)
      = max a (l.foldl (fun m c2 => max m (simEntry q c2)) b) := by
  induction l with
  | nil => intro a b; rfl
  | cons c cs ih =>
    intro a b
    simp only [List.foldl_cons]
    rw [max_assoc, ih]

/-- The max-fold of `rowMax` is invariant under permutation of the folded list. -/
theorem foldl_max_perm (q : List ℝ) {l l' : List (List ℝ)} (h : l.Perm l') :
    ∀ a : ℝ, l.foldl (fun m c2 => max m (simEntry q c2)) a
      = l'.foldl (fun m c2 => max m (simEntry q c2)) a := by
  induction h with
  | nil => intro a; rfl
  | cons x _ ih => intro a; simp only [List.foldl_cons]; exact ih _
  | swap x y l =>
    intro a
    simp only [List.foldl_cons]
    rw [sup_right_comm]
  | trans _ _ ih1 ih2 => intro a; rw [ih1, ih2]

/-- Absorbing the similarity of a member of the list into the accumulator of the
max-fold does not change the result. -/
theorem foldl_max_absorb (q : List ℝ) {l : List (List ℝ)} {x : List ℝ} (hx : x ∈ l) :
    ∀ a : ℝ, l.foldl (fun m c2 => max m (simEntry q c2)) a
      = l.foldl (fun m c2 => max m (simEntry q c2)) (max a (simEntry q x)) := by
  induction l with
  | nil => cases hx
  | cons c cs ih =>
    intro a
    rcases List.mem_cons.mp hx with hx | hx
    · subst hx
      simp only [List.foldl_cons]
      rw [max_assoc, max_self]
    · simp only [List.foldl_cons]
      rw [ih hx (max a (simEntry q c)), sup_right_comm]

/-- Fact: `rowMax` is invariant under permutation of the chunk token list. -/
theorem rowMax_perm (q : List ℝ) {C C' : List (List ℝ)} (h : C.Perm C') :
    rowMax q C = rowMax q C' := by
  cases C with
  | nil => cases h.nil_eq; rfl
  | cons c cs =>
    cases C' with
    | nil => exact absurd h.symm.nil_eq (by simp)
    | cons c' cs' =>
      have hc : c ∈ c' :: cs' := h.mem_iff.mp (List.mem_cons_self c cs)
      have hc' : c' ∈ c :: cs := h.symm.mem_iff.mp (List.mem_cons_self c' cs')
      -- fold each side over its full list, using idempotence of `max`
      have e1 : rowMax q (c :: cs)
          = (c :: cs).foldl (fun m c2 => max m (simEntry q c2)) (simEntry q c) := by
        simp only [rowMax, List.foldl_cons, max_self]
      have e2 : rowMax q (c' :: cs')
          = (c' :: cs').foldl (fun m c2 => max m (simEntry q c2)) (simEntry q c') := by
        simp only [rowMax, List.foldl_cons, max_self]
      rw [e1, e2, foldl_max_perm q h (simEntry q c),
        foldl_max_absorb q (List.mem_cons_self c' cs') (simEntry q c),
        foldl_max_absorb q hc (simEntry q c'), max_comm]

/-- C8: `maxsim_score` is independent of the order of the chunk token vectors:
for every query multi-vector `Q` and every permutation `C'` of the chunk
multi-vector `C`, `maxsim_score Q C' = maxsim_score Q C`. -/
theorem maxsim_score_perm_invariant (Q C C' : List (List ℝ)) (h : C'.Perm C) :
    maxsim_score Q C' = maxsim_score Q C := by
  cases Q with
  | nil => cases C' <;> cases C <;> rfl
  | cons q qs =>
    cases C' with
    | nil => cases h.nil_eq; rfl
    | cons c' cs' =>
      cases C with
      | nil => exact absurd h.symm.nil_eq (by simp)
      | cons c cs =>
        simp only [maxsim_score]
        congr 1
        exact List.map_congr_left (fun qv _ => rowMax_perm qv h)

/-- Witness for C8 at a concrete transposition of two chunk token vectors. -/
theorem maxsim_score_perm_invariant_witness :
    ([[(0 : ℝ)], [1]]).Perm [[1], [0]] ∧
      maxsim_score [[(1 : ℝ)]] [[0], [1]] = maxsim_score [[(1 : ℝ)]] [[1], [0]] :=
  ⟨List.Perm.swap _ _ _,
    maxsim_score_perm_invariant [[(1 : ℝ)]] [[1], [0]] [[0], [1]] (List.Perm.swap _ _ _)⟩

/-! ## Reranker (`reranker.py`) -/

/-- Chunk metadata carried through the retrieval pipeline (a dict in the source;
the named fields are the ones the core reads, `extra` carries the remaining
opaque key-value pairs). -/
structure Metadata where
  chunk_name : String
  chunk_text : String
  chunk_source : Option String
  extra : List (String × String)
  deriving Repr, DecidableEq

/-- A retrieval result / rerank candidate: `{'chunk_id', 'score', 'metadata'}`
(`RetrievalResult` structure, `retrieval/types.py`). -/
structure Candidate where
  chunk_id : String
  score : ℝ
  metadata : Metadata

/-- The per-candidate body of `Reranker.rerank`'s scoring loop:
`chunk_multi_vectors_dict.get(chunk_id)` is modelled by `store chunk_id`;
a truthy value (present and non-empty) yields a fresh result dict with the
MaxSim score and the preserved metadata, anything else falls back to
`candidate.copy()`. -/
noncomputable def rerankEntry (query_multi_vectors : List (List ℝ))
    (store : String → Option (List (List ℝ))) (c : Candidate) : Candidate :=
  match store c.chunk_id with
  | some (v :: vs) =>
    { chunk_id := c.chunk_id,
      score := maxsim_score query_multi_vectors (v :: vs),
      metadata := c.metadata }
  | some [] => c
  | none => c

/-- The comparison used by `reranked.sort(key=lambda x: x["score"], reverse=True)`:
a stable sort placing higher scores first. -/
noncomputable def rerankLE (a b : Candidate) : Bool := decide (b.score ≤ a.score)

/-- Embedding of `Reranker.rerank`: batched multi-vector lookup (modelled by `store`), MaxSim
scoring with fallback for candidates whose multi-vectors are missing, then a
stable descending sort by score. -/
noncomputable def rerank (query_multi_vectors : List (List ℝ))
    (store : String → Option (List (List ℝ))) (candidates : List Candidate) :
    List Candidate :=
  (candidates.map (rerankEntry query_multi_vectors store)).mergeSort rerankLE

theorem rerankLE_trans (a b c : Candidate) :
    rerankLE a b → rerankLE b c → rerankLE a c := by
  simp only [rerankLE, decide_eq_true_eq]
  exact fun h1 h2 => le_trans h2 h1

theorem rerankLE_total (a b : Candidate) : rerankLE a b || rerankLE b a := by
  simp only [rerankLE]
  rcases le_total a.score b.score with h | h
  · simp [h]
  · simp [h]

/-- Fact: `rerankEntry` never changes the chunk identifier. -/
theorem rerankEntry_chunk_id (Q : List (List ℝ)) (store : String → Option (List (List ℝ)))
    (c : Candidate) : (rerankEntry Q store c).chunk_id = c.chunk_id := by
  unfold rerankEntry
  cases store c.chunk_id with
  | none => rfl
  | some l => cases l with
    | nil => rfl
    | cons v vs => rfl

/-- C4: the output of `rerank` carries exactly the input candidates' chunk
identifiers (a permutation — none added or dropped), every candidate whose
multi-vectors are found in the store appears scored with its MaxSim score and
preserved metadata, and the whole output is non-increasing in the `score`
field; ties are ordered deterministically (stably, in input order). -/
theorem rerank_spec (Q : List (List ℝ)) (store : String → Option (List (List ℝ)))
    (candidates : List Candidate) :
    ((rerank Q store candidates).map Candidate.chunk_id).Perm
        (candidates.map Candidate.chunk_id)
    ∧ (∀ c ∈ candidates, ∀ v vs, store c.chunk_id = some (v :: vs) →
        ({ chunk_id := c.chunk_id, score := maxsim_score Q (v :: vs),
           metadata := c.metadata } : Candidate) ∈ rerank Q store candidates)
    ∧ (rerank Q store candidates).Pairwise (fun a b => b.score ≤ a.score)
    ∧ (∀ a b : Candidate, a.score = b.score →
        [a, b].Sublist (candidates.map (rerankEntry Q store)) →
        [a, b].Sublist (rerank Q store candidates)) := by
  refine ⟨?_, ?_, ?_, ?_⟩
  · have h1 := List.mergeSort_perm (candidates.map (rerankEntry Q store)) rerankLE
    have h2 := h1.map Candidate.chunk_id
    rw [List.map_map] at h2
    have h3 : (candidates.map (Candidate.chunk_id ∘ rerankEntry Q store))
        = candidates.map Candidate.chunk_id :=
      List.map_congr_left (fun c _ => rerankEntry_chunk_id Q store c)
    rw [h3] at h2
    exact h2
  · intro c hc v vs hs
    have he : rerankEntry Q store c
        = { chunk_id := c.chunk_id, score := maxsim_score Q (v :: vs),
            metadata := c.metadata } := by
      unfold rerankEntry
      rw [hs]
    have : rerankEntry Q store c ∈ candidates.map (rerankEntry Q store) :=
      List.mem_map_of_mem _ hc
    rw [he] at this
    exact List.mem_mergeSort.mpr this
  · have h := List.sorted_mergeSort rerankLE_trans rerankLE_total
      (candidates.map (rerankEntry Q store))
    exact h.imp (fun hab => by
      simpa only [rerankLE, decide_eq_true_eq] using hab)
  · intro a b hab hsub
    exact List.pair_sublist_mergeSort rerankLE_trans rerankLE_total
      (by simp [rerankLE, hab]) hsub

/-- Witness for C4 at a one-candidate input whose multi-vectors are present. -/
theorem rerank_spec_witness :
    ({ chunk_id := "a", score := maxsim_score [[(1 : ℝ)]] [[1]],
       metadata := ⟨"n", "t", none, []⟩ } : Candidate)
      ∈ rerank [[(1 : ℝ)]] (fun _ => some [[1]])
        [{ chunk_id := "a", score := (0 : ℝ), metadata := ⟨"n", "t", none, []⟩ }] :=
  (rerank_spec [[(1 : ℝ)]] (fun _ => some [[1]])
      [{ chunk_id := "a", score := (0 : ℝ), metadata := ⟨"n", "t", none, []⟩ }]).2.1
    _ (List.mem_singleton.mpr rfl) [1] [] rfl

/-- C3: a candidate whose chunk identifier is absent from the multi-vector
store's `batch_get` result is passed through `rerank` unscored: the candidate
itself — original ANN score and metadata intact — is a member of the output
(never dropped), and it keeps its position group: any two entries of the
pre-sort list with equal scores keep their relative order in the output. -/
theorem rerank_missing_passthrough (Q : List (List ℝ))
    (store : String → Option (List (List ℝ))) (candidates : List Candidate)
    (c : Candidate) (hc : c ∈ candidates) (hm : store c.chunk_id = none) :
    c ∈ rerank Q store candidates
    ∧ (∀ d : Candidate, d.score = c.score →
        ([d, c].Sublist (candidates.map (rerankEntry Q store)) →
          [d, c].Sublist (rerank Q store candidates))
        ∧ ([c, d].Sublist (candidates.map (rerankEntry Q store)) →
          [c, d].Sublist (rerank Q store candidates))) := by
  constructor
  · have he : rerankEntry Q store c = c := by
      unfold rerankEntry
      rw [hm]
    have : rerankEntry Q store c ∈ candidates.map (rerankEntry Q store) :=
      List.mem_map_of_mem _ hc
    rw [he] at this
    exact List.mem_mergeSort.mpr this
  · intro d hd
    constructor
    · intro hsub
      exact List.pair_sublist_mergeSort rerankLE_trans rerankLE_total
        (by simp [rerankLE, hd]) hsub
    · intro hsub
      exact List.pair_sublist_mergeSort rerankLE_trans rerankLE_total
        (by simp [rerankLE, hd]) hsub

/-- Witness for C3: a store with no entries passes the candidate through. -/
theorem rerank_missing_passthrough_witness :
    ({ chunk_id := "a", score := (1 : ℝ), metadata := ⟨"n", "t", none, []⟩ } : Candidate)
      ∈ rerank [] (fun _ => none)
        [{ chunk_id := "a", score := (1 : ℝ), metadata := ⟨"n", "t", none, []⟩ }] :=
  (rerank_missing_passthrough [] (fun _ => none)
      [{ chunk_id := "a", score := (1 : ℝ), metadata := ⟨"n", "t", none, []⟩ }]
      _ (List.mem_singleton.mpr rfl) rfl).1

/-! ## Groq LLM client message formatting (`groq_client.py`) -/

/-- A tool call in the standard extracted format `{'id', 'name', 'arguments'}`
produced by `GroqClient.extract_tool_calls`. -/
structure ToolCall where
  id : String
  name : String
  arguments : String
  deriving Repr, DecidableEq

/-- The `function` sub-object of an OpenAI/Groq wire-format tool call. -/
structure WireFunction where
  name : String
  arguments : String
  deriving Repr, DecidableEq

/-- An OpenAI/Groq wire-format tool call, as emitted inside an assistant
message by `format_tool_message` and as found on a provider response. -/
structure WireToolCall where
  id : String
  type : String
  function : WireFunction
  deriving Repr, DecidableEq

/-- A conversation message in LLM (OpenAI/Groq) format. The source uses plain
dicts; `none` models an absent key (`content = None` is also modelled by
`none`, matching the JSON `null` the dict value serializes to). -/
structure Message where
  role : String
  content : Option String := none
  tool_calls : Option (List WireToolCall) := none
  tool_call_id : Option String := none
  name : Option String := none
  deriving Repr, DecidableEq

/-- The `choices[i].message` part of a Groq chat-completion response:
the orchestrator only reads `content` and `tool_calls`. -/
structure RespMessage where
  content : Option String
  tool_calls : Option (List WireToolCall)
  deriving Repr, DecidableEq

/-- A Groq chat-completion response; `choices` holds each choice's message. -/
structure GroqResponse where
  choices : List RespMessage
  deriving Repr, DecidableEq

/-- Embedding of `GroqClient.extract_tool_calls`: empty when there are no choices or the
first choice carries no (or a falsy, i.e. empty) `tool_calls` attribute,
otherwise the standard-format image of the wire tool calls, in order. -/
def extract_tool_calls (r : GroqResponse) : List ToolCall :=
  match r.choices with
  | [] => []
  | m :: _ =>
    match m.tool_calls with
    | none => []
    | some [] => []
    | some tcs => tcs.map fun tc =>
        { id := tc.id, name := tc.function.name, arguments := tc.function.arguments }

/-- Embedding of `GroqClient.extract_text_content`: the first choice's content, `""` when
there are no choices or content is `None`. -/
def extract_text_content (r : GroqResponse) : String :=
  match r.choices with
  | [] => ""
  | m :: _ => m.content.getD ""

/-- Embedding of `GroqClient.has_tool_calls`: `bool(getattr(message, "tool_calls", None))`
on the first choice — false for no choices, a missing attribute, or an empty
list. -/
def has_tool_calls (r : GroqResponse) : Bool :=
  match r.choices with
  | [] => false
  | m :: _ =>
    match m.tool_calls with
    | none => false
    | some [] => false
    | some (_ :: _) => true

/-- Embedding of `GroqClient.format_tool_message`: assistant message with `content = None`
and the given tool calls re-wrapped into wire format, in order. -/
def format_tool_message (tool_calls : List ToolCall) : Message :=
  { role := "assistant",
    content := none,
    tool_calls := some (tool_calls.map fun tc =>
      { id := tc.id, type := "function",
        function := { name := tc.name, arguments := tc.arguments } }) }

/-- Embedding of `GroqClient.format_tool_result_message`. -/
def format_tool_result_message (tool_call_id tool_name tool_result : String) :
    Message :=
  { role := "tool",
    tool_call_id := some tool_call_id,
    name := some tool_name,
    content := some tool_result }

/-- C9 counterexample: at the explicit input `[]`, `format_tool_message`
still returns `content = None`, so "content is null precisely when the
tool-call list is non-empty" is false (null does not imply non-empty). -/
theorem format_tool_message_content_iff_counterexample :
    ¬ (((format_tool_message ([] : List ToolCall)).content = none)
        ↔ ([] : List ToolCall) ≠ []) := by
  intro h
  exact (h.mp rfl) rfl

/-- C9 (amended): `format_tool_message` returns an assistant-role message whose
`content` is always null — in particular whenever the tool-call list is
non-empty — and which carries exactly the given tool calls with ids, names and
arguments preserved in order. -/
theorem format_tool_message_spec (tool_calls : List ToolCall) :
    (format_tool_message tool_calls).role = "assistant"
    ∧ (format_tool_message tool_calls).content = none
    ∧ (format_tool_message tool_calls).tool_calls = some (tool_calls.map fun tc =>
        { id := tc.id, type := "function",
          function := { name := tc.name, arguments := tc.arguments } }) :=
  ⟨rfl, rfl, rfl⟩

/-! ## Agent orchestrator (`orchestrator.py`)

`AgentOrchestrator.process_query` loops calling the LLM until a response
carries no tool calls. The LLM is modelled by a script: the list of successive
`chat_completion` responses (an empty script models a further, unscripted LLM
round trip and yields an error, like any in-loop exception the orchestrator
wraps into `AgenticException`). Tool execution via the registry
(`_execute_tools` / `_execute_single_tool`, including `json.loads` of the
arguments) is modelled by the oracle `ex : name → arguments → Except`. -/

/-- Embedding of `AgentOrchestrator._execute_tools`: execute all tool calls sequentially,
in order; the first failure aborts the whole batch (a raised
`ToolExecutionError`). -/
def exec_tools (ex : String → String → Except String String) :
    List ToolCall → Except String (List (ToolCall × String))
  | [] => .ok []
  | tc :: rest =>
    match ex tc.name tc.arguments with
    | .error e => .error e
    | .ok res =>
      match exec_tools ex rest with
      | .error e => .error e
      | .ok rs => .ok ((tc, res) :: rs)

/-- The `while True` loop of `process_query`: call the LLM; with no tool calls
append the final assistant text message and stop; with tool calls append the
formatted assistant tool-call message, execute the calls in order, append one
tool-result message per call (in the same order), and loop. -/
def run_loop (ex : String → String → Except String String) :
    List GroqResponse → List Message → Except String (List Message)
  | [], _ => .error "llm response not scripted"
  | r :: rest, msgs =>
    if has_tool_calls r then
      match exec_tools ex (extract_tool_calls r) with
      | .error e => .error e
      | .ok rs =>
        run_loop ex rest
          ((msgs ++ [format_tool_message (extract_tool_calls r)])
            ++ rs.map (fun p => format_tool_result_message p.1.id p.1.name p.2))
    else
      .ok (msgs ++ [{ role := "assistant", content := some (extract_text_content r) }])

/-- Embedding of `AgentOrchestrator.process_query`: start from a copy of the caller's prior
messages (`messages.copy() if messages else []`), append the user message for
the query, and run the loop. -/
def process_query (ex : String → String → Except String String)
    (script : List GroqResponse) (query : String)
    (messages : Option (List Message)) : Except String (List Message) :=
  let msgs := match messages with
    | none => []
    | some l => l
  run_loop ex script (msgs ++ [{ role := "user", content := some query }])

/-- Successful sequential execution returns one result per tool call, paired
with its call, in call order. -/
theorem exec_tools_fst (ex : String → String → Except String String) :
    ∀ (tcs : List ToolCall) (rs : List (ToolCall × String)),
      exec_tools ex tcs = .ok rs → rs.map Prod.fst = tcs := by
  intro tcs
  induction tcs with
  | nil => intro rs h; cases h; rfl
  | cons tc rest ih =>
    intro rs h
    unfold exec_tools at h
    cases hx : ex tc.name tc.arguments with
    | error e => rw [hx] at h; cases h
    | ok res =>
      rw [hx] at h
      cases hr : exec_tools ex rest with
      | error e => rw [hr] at h; cases h
      | ok rs' =>
        rw [hr] at h
        cases h
        simp [ih rs' hr]

/-- C1: when the LLM first returns exactly one tool call `T` and then a final
text answer, `process_query` returns the input history plus, in this exact
order: the user message, an assistant message with `content = None` carrying
`tool_calls = [T]`, one tool message whose `tool_call_id` is `T`'s id and
whose `name` is `T`'s tool name, and the final assistant text message.
Moreover (second conjunct) every loop step executes the extracted tool calls
sequentially in extraction order and appends the assistant tool-call message
followed by one tool-result message per call, in that same order. -/
theorem process_query_one_tool_call
    (ex : String → String → Except String String)
    (r1 r2 : GroqResponse) (T : ToolCall) (res : String)
    (query : String) (hist : List Message)
    (h1 : has_tool_calls r1 = true)
    (he : extract_tool_calls r1 = [T])
    (h2 : has_tool_calls r2 = false)
    (hex : ex T.name T.arguments = .ok res) :
    (process_query ex [r1, r2] query (some hist)
      = .ok (hist ++ [
          { role := "user", content := some query },
          { role := "assistant", content := none,
            tool_calls :=
              some [{ id := T.id, type := "function",
                      function := { name := T.name, arguments := T.arguments } }] },
          { role := "tool", tool_call_id := some T.id, name := some T.name,
            content := some res },
          { role := "assistant", content := some (extract_text_content r2) }]))
    ∧ (∀ (r : GroqResponse) (rest : List GroqResponse) (msgs : List Message)
          (rs : List (ToolCall × String)),
        has_tool_calls r = true →
        exec_tools ex (extract_tool_calls r) = .ok rs →
        run_loop ex (r :: rest) msgs
          = run_loop ex rest
              ((msgs ++ [format_tool_message (extract_tool_calls r)])
                ++ rs.map (fun p => format_tool_result_message p.1.id p.1.name p.2))
        ∧ rs.map Prod.fst = extract_tool_calls r) := by
  constructor
  · have hexec : exec_tools ex [T] = .ok [(T, res)] := by
      unfold exec_tools
      rw [hex]
      rfl
    simp [process_query, run_loop, h1, hexec, he, h2,
      format_tool_message, format_tool_result_message]
  · intro r rest msgs rs hr hrs
    refine ⟨?_, exec_tools_fst ex _ rs hrs⟩
    simp only [run_loop, hr, if_true, hrs]

/-- Witness for C1: a concrete two-response script with one tool call. -/
theorem process_query_one_tool_call_witness :
    process_query (fun _ _ => .ok "result")
      [⟨[⟨none, some [⟨"id1", "function", ⟨"search", "args"⟩⟩]⟩]⟩,
       ⟨[⟨some "final", none⟩]⟩] "hello" (some [])
      = .ok [
          { role := "user", content := some "hello" },
          { role := "assistant", content := none,
            tool_calls :=
              some [{ id := "id1", type := "function",
                      function := { name := "search", arguments := "args" } }] },
          { role := "tool", tool_call_id := some "id1", name := some "search",
            content := some "result" },
          { role := "assistant", content := some (extract_text_content ⟨[⟨some "final", none⟩]⟩) }] :=
  (process_query_one_tool_call (fun _ _ => .ok "result")
      ⟨[⟨none, some [⟨"id1", "function", ⟨"search", "args"⟩⟩]⟩]⟩
      ⟨[⟨some "final", none⟩]⟩ ⟨"id1", "search", "args"⟩ "result" "hello" []
      rfl rfl rfl rfl).1

/-! ## Frame property of `process_query` (C10)

The source mutates a Python list through `messages.append`. To state that the
caller's list object is never mutated, the list objects are made explicit: a
heap of message lists addressed by index, `messages.copy()` allocates a fresh
cell, and every `append` writes the fresh cell. -/

/-- A heap of Python list objects holding conversation messages. -/
abbrev Heap := List (List Message)

/-- Dereference a list object (absent references read as `[]`). -/
def heapGet (h : Heap) (r : ℕ) : List Message := (h[r]?).getD []

/-- Overwrite a list object in place. -/
def heapSet (h : Heap) (r : ℕ) (v : List Message) : Heap := h.set r v

/-- Mutation `the_list.append(m)` on the object at `r`. -/
def appendMsg (h : Heap) (r : ℕ) (m : Message) : Heap :=
  heapSet h r (heapGet h r ++ [m])

/-- The `process_query` loop, with the working message list as a heap object
mutated in place through `r` (same control flow as `run_loop`). -/
def run_loop_mut (ex : String → String → Except String String) :
    List GroqResponse → Heap → ℕ → Except String (List Message) × Heap
  | [], h, _ => (.error "llm response not scripted", h)
  | resp :: rest, h, r =>
    if has_tool_calls resp then
      let h1 := appendMsg h r (format_tool_message (extract_tool_calls resp))
      match exec_tools ex (extract_tool_calls resp) with
      | .error e => (.error e, h1)
      | .ok rs =>
        run_loop_mut ex rest
          (rs.foldl
            (fun hh p => appendMsg hh r (format_tool_result_message p.1.id p.1.name p.2))
            h1) r
    else
      let h1 := appendMsg h r
        { role := "assistant", content := some (extract_text_content resp) }
      (.ok (heapGet h1 r), h1)

/-- Embedding of `process_query` over explicit list objects: `messages.copy() if messages
else []` allocates a fresh object (initialized from the caller's object value,
or empty), and all appends target the fresh object. -/
def process_query_mut (ex : String → String → Except String String)
    (script : List GroqResponse) (query : String)
    (h : Heap) (caller : Option ℕ) : Except String (List Message) × Heap :=
  let init : List Message := match caller with
    | none => []
    | some cr => heapGet h cr
  let h1 := h ++ [init]
  let r := h.length
  run_loop_mut ex script (appendMsg h1 r { role := "user", content := some query }) r

theorem heapGet_appendMsg_ne (h : Heap) (r cr : ℕ) (m : Message) (hne : cr ≠ r) :
    heapGet (appendMsg h r m) cr = heapGet h cr := by
  simp only [appendMsg, heapSet, heapGet]
  rw [List.getElem?_set_ne (by omega)]

theorem appendMsg_length (h : Heap) (r : ℕ) (m : Message) :
    (appendMsg h r m).length = h.length := by
  simp [appendMsg, heapSet]

theorem heapGet_foldl_appendMsg_ne (r cr : ℕ) (hne : cr ≠ r)
    (rs : List (ToolCall × String)) :
    ∀ h : Heap, heapGet
      (rs.foldl
        (fun hh p => appendMsg hh r (format_tool_result_message p.1.id p.1.name p.2)) h)
      cr = heapGet h cr := by
  induction rs with
  | nil => intro h; rfl
  | cons p rest ih =>
    intro h
    simp only [List.foldl_cons]
    rw [ih, heapGet_appendMsg_ne _ _ _ _ hne]

/-- The orchestrator loop never writes any list object other than `r`. -/
theorem run_loop_mut_frame (ex : String → String → Except String String) :
    ∀ (script : List GroqResponse) (h : Heap) (r cr : ℕ), cr ≠ r →
      heapGet (run_loop_mut ex script h r).2 cr = heapGet h cr := by
  intro script
  induction script with
  | nil => intro h r cr hne; rfl
  | cons resp rest ih =>
    intro h r cr hne
    unfold run_loop_mut
    by_cases hr : has_tool_calls resp
    · simp only [hr, if_true]
      cases hrs : exec_tools ex (extract_tool_calls resp) with
      | error e =>
        simpa using heapGet_appendMsg_ne h r cr _ hne
      | ok rs =>
        simp only []
        rw [ih _ r cr hne, heapGet_foldl_appendMsg_ne r cr hne,
          heapGet_appendMsg_ne h r cr _ hne]
    · simp only [hr, if_false]
      exact heapGet_appendMsg_ne h r cr _ hne

/-- C10: for every caller-supplied prior message list (a valid list object in
the heap), `process_query` leaves that object unchanged — it copies the list
into a fresh object before appending the user, assistant and tool messages —
whether the run succeeds or fails. -/
theorem process_query_mut_frame (ex : String → String → Except String String)
    (script : List GroqResponse) (query : String) (h : Heap) (cr : ℕ)
    (hcr : cr < h.length) :
    heapGet (process_query_mut ex script query h (some cr)).2 cr = heapGet h cr := by
  unfold process_query_mut
  have hne : cr ≠ h.length := by omega
  rw [run_loop_mut_frame ex script _ _ _ hne,
    heapGet_appendMsg_ne _ _ _ _ hne]
  simp only [heapGet]
  rw [List.getElem?_append_left hcr]

/-- Witness for C10 on a one-object heap. -/
theorem process_query_mut_frame_witness :
    heapGet (process_query_mut (fun _ _ => .ok "") [] "q"
      [[{ role := "user", content := some "before" }]] (some 0)).2 0
      = heapGet [[{ role := "user", content := some "before" }]] 0 :=
  process_query_mut_frame (fun _ _ => .ok "") [] "q"
    [[{ role := "user", content := some "before" }]] 0 (by decide)

/-! ## Jina embedding client (`embedding/client.py`)

The network is modelled by an oracle `net attempt callIdx` giving the outcome
of the `callIdx`-th HTTP POST of retry attempt `attempt`: either an HTTP
failure status (→ `httpx` error, `raise_for_status`) or a successful response
body. -/

/-- An embedable item: `{'id': ..., 'text': ...}` and/or `{'pdf': ...}`.
A missing or empty `id` is falsy in `if not id`. -/
structure Embedable where
  id : String
  text : Option String
  pdf : Option String
  deriving Repr, DecidableEq

/-- The JSON body of a successful embedding API response, reduced to the
fields the client reads (`data[0]["embedding"]` / `data[0]["embeddings"]`). -/
structure ApiResponse where
  embedding : List ℝ
  embeddings : List (List ℝ)

/-- One EmbeddingResult (`embedding/types.py`), reduced to the fields built by
`_build_embedding_result`. -/
structure EmbedResult where
  id : String
  text : Option String
  single : List ℝ
  multi : List (List ℝ)

/-- The typed `EmbeddingError` kinds raised by `embed` and its helpers. -/
inductive EmbErrorKind where
  | emptyInput
  | missingApiKey
  | transport (status : ℕ)
  | badItem (msg : String)
  deriving Repr, DecidableEq

/-- Client configuration (`JinaEmbeddingClient.__init__`); `max_retries` is
the `self.max_retries` attribute (`jina_max_retries` by default). -/
structure ClientCfg where
  api_key : String
  task : String
  max_retries : ℕ
  deriving Repr, DecidableEq

/-- Embedding of `_build_input_payload`: the task decides which field is required;
query embeddings carry back the source text, passage embeddings do not. -/
def build_input_payload (cfg : ClientCfg) (e : Embedable) :
    Except EmbErrorKind (String × Option String) :=
  if cfg.task = "retrieval.passage" then
    match e.pdf with
    | none => .error (.badItem "pdf not found in embedable")
    | some p => .ok (p, none)
  else if cfg.task = "retrieval.query" then
    match e.text with
    | none => .error (.badItem "text not found in embedable")
    | some t => .ok (t, some t)
  else .error (.badItem "invalid task")

/-- Embedding of `_embed_single_item`: check the id, build the payload, make the two API
calls (single-vector and multi-vector, `asyncio.gather`) and build the result.
Returns the result (or typed error) and the number of network calls made,
starting from call index `k`. -/
def embed_single_item (net : ℕ → Except ℕ ApiResponse) (cfg : ClientCfg)
    (k : ℕ) (e : Embedable) : Except EmbErrorKind EmbedResult × ℕ :=
  if e.id = "" then (.error (.badItem "embedable must have id field"), k)
  else
    match build_input_payload cfg e with
    | .error er => (.error er, k)
    | .ok (_payload, text) =>
      match net k, net (k + 1) with
      | .error s, _ => (.error (.transport s), k + 2)
      | .ok _, .error s => (.error (.transport s), k + 2)
      | .ok sv, .ok mv =>
        (.ok { id := e.id, text := text, single := sv.embedding,
               multi := mv.embeddings }, k + 2)

/-- The sequential item loop of `embed`'s body: one result per embedable, in
order; any failure aborts the whole batch with no partial results. -/
def embed_items (net : ℕ → Except ℕ ApiResponse) (cfg : ClientCfg) :
    List Embedable → ℕ → Except EmbErrorKind (List EmbedResult) × ℕ
  | [], k => (.ok [], k)
  | e :: rest, k =>
    match embed_single_item net cfg k e with
    | (.error er, k1) => (.error er, k1)
    | (.ok r, k1) =>
      match embed_items net cfg rest k1 with
      | (.error er, k2) => (.error er, k2)
      | (.ok rs, k2) => (.ok (r :: rs), k2)

/-- One attempt of the decorated `embed` body: fail fast on a missing API key
or empty input (before any network call), otherwise run the item loop;
`httpx` transport failures surface as typed `EmbeddingError`s of transport
kind (the `except httpx.HTTPStatusError` conversion). -/
def embed_attempt (net : ℕ → Except ℕ ApiResponse) (cfg : ClientCfg)
    (embedables : List Embedable) : Except EmbErrorKind (List EmbedResult) × ℕ :=
  if cfg.api_key = "" then (.error .missingApiKey, 0)
  else
    match embedables with
    | [] => (.error .emptyInput, 0)
    | e :: rest => embed_items net cfg (e :: rest) 0

/-- Outcome of a retried call: result, attempts performed, total network
calls, and the backoff delays slept between attempts. -/
structure RetryOutcome (α : Type) where
  result : Except EmbErrorKind α
  attempts : ℕ
  calls : ℕ
  delays : List ℚ

/-- The failures the retry policy retries: transport/HTTP failures. -/
def is_retryable : EmbErrorKind → Bool
  | .transport _ => true
  | _ => false

/-- Modelled from the spec: `retry_with_backoff` (in `utils/retry.py`, which is
not under `src/` — only its import and decorator application in
`embedding/client.py` are) is "a bounded exponential-backoff retry policy
(fixed max attempts, backoff multiplier per attempt) that retries on
transport/HTTP failures and re-raises a typed error after exhausting
attempts". Attempt `i` (0-based) that fails retryably sleeps
`base_delay * 2 ^ i` before the next attempt; the final error is re-raised. -/
def retry_go (base_delay : ℚ) (action : ℕ → Except EmbErrorKind α × ℕ) :
    ℕ → ℕ → ℕ → List ℚ → RetryOutcome α
  | 0, _, calls, delays =>
    (⟨.error (.badItem "no attempts configured"), 0, calls, delays⟩ : RetryOutcome α)
  | fuel + 1, attempt, calls, delays =>
    match action attempt with
    | (.ok a, c) => ⟨.ok a, attempt + 1, calls + c, delays⟩
    | (.error er, c) =>
      if is_retryable er ∧ fuel ≠ 0 then
        retry_go base_delay action fuel (attempt + 1) (calls + c)
          (delays ++ [base_delay * 2 ^ attempt])
      else ⟨.error er, attempt + 1, calls + c, delays⟩

/-- Modelled from the spec: the `retry_with_backoff(max_retries, base_delay)`
decorator itself (`utils/retry.py`, missing from `src/`). -/
def retry_with_backoff (max_retries : ℕ) (base_delay : ℚ)
    (action : ℕ → Except EmbErrorKind α × ℕ) : RetryOutcome α :=
  retry_go base_delay action max_retries 0 0 []

/-- Embedding of `JinaEmbeddingClient.embed` as shipped: the body wrapped in
`@retry_with_backoff(max_retries=3, base_delay=1.0)` — the literal `3`,
independent of `cfg.max_retries`. -/
def embed (net : ℕ → ℕ → Except ℕ ApiResponse) (cfg : ClientCfg)
    (embedables : List Embedable) : RetryOutcome (List EmbedResult) :=
  retry_with_backoff 3 1 (fun attempt => embed_attempt (net attempt) cfg embedables)

/-- C5 counterexample: a client configured with `max_retries = 5` whose every
network call fails with HTTP 500 gives up after 3 attempts — the decorator's
literal — not after the client's configured `max_retries`. -/
theorem embed_attempts_ne_configured_counterexample :
    (embed (fun _ _ => .error 500)
        { api_key := "k", task := "retrieval.query", max_retries := 5 }
        [{ id := "i", text := some "t", pdf := none }]).attempts = 3
    ∧ ({ api_key := "k", task := "retrieval.query", max_retries := 5 } : ClientCfg).max_retries ≠ 3 := by
  constructor
  · rfl
  · decide

/-- C5 (amended): if every attempt of `embed` fails with a transport/HTTP
failure, `embed` raises a typed embedding error after exactly the retry
decorator's fixed maximum of 3 attempts (whatever the client's configured
`max_retries`), having slept the exponential backoff delays
`[1 * 2 ^ 0, 1 * 2 ^ 1]` between attempts, and returns no partial results. -/
theorem embed_all_transport_failures (net : ℕ → ℕ → Except ℕ ApiResponse)
    (cfg : ClientCfg) (embedables : List Embedable) (status : ℕ → ℕ)
    (hfail : ∀ a, (embed_attempt (net a) cfg embedables).1
      = .error (.transport (status a))) :
    (embed net cfg embedables).result = .error (.transport (status 2))
    ∧ (embed net cfg embedables).attempts = 3
    ∧ (embed net cfg embedables).delays = [1 * 2 ^ 0, 1 * 2 ^ 1] := by
  have step : ∀ a, ∃ k, embed_attempt (net a) cfg embedables
      = (.error (.transport (status a)), k) := by
    intro a
    refine ⟨(embed_attempt (net a) cfg embedables).2, ?_⟩
    have := hfail a
    cases h : embed_attempt (net a) cfg embedables with
    | mk fst snd => rw [h] at this; simp only at this; rw [this]
  obtain ⟨k0, hs0⟩ := step 0
  obtain ⟨k1, hs1⟩ := step 1
  obtain ⟨k2, hs2⟩ := step 2
  simp only [embed, retry_with_backoff, retry_go, hs0, hs1, hs2, is_retryable]
  norm_num

/-- Witness for C5 (amended) with an always-failing network. -/
theorem embed_all_transport_failures_witness :
    (embed (fun _ _ => .error 500)
        { api_key := "k", task := "retrieval.query", max_retries := 5 }
        [{ id := "i", text := some "t", pdf := none }]).result
      = .error (.transport 500)
    ∧ (embed (fun _ _ => .error 500)
        { api_key := "k", task := "retrieval.query", max_retries := 5 }
        [{ id := "i", text := some "t", pdf := none }]).attempts = 3
    ∧ (embed (fun _ _ => .error 500)
        { api_key := "k", task := "retrieval.query", max_retries := 5 }
        [{ id := "i", text := some "t", pdf := none }]).delays = [1 * 2 ^ 0, 1 * 2 ^ 1] :=
  embed_all_transport_failures (fun _ _ => .error 500)
    { api_key := "k", task := "retrieval.query", max_retries := 5 }
    [{ id := "i", text := some "t", pdf := none }] (fun _ => 500) (fun _ => rfl)

/-- C6: `embed` on an empty input list fails with a typed embedding error
before any network call; and with missing API credentials no API request is
dispatched for any input. -/
theorem embed_empty_fails_fast (net : ℕ → ℕ → Except ℕ ApiResponse)
    (cfg : ClientCfg) :
    ((embed net cfg []).calls = 0
      ∧ (embed net cfg []).result
          = .error (if cfg.api_key = "" then .missingApiKey else .emptyInput))
    ∧ (∀ embedables, cfg.api_key = "" →
        (embed net cfg embedables).calls = 0
        ∧ (embed net cfg embedables).result = .error .missingApiKey) := by
  constructor
  · by_cases hk : cfg.api_key = ""
    · simp [embed, retry_with_backoff, retry_go, embed_attempt, hk, is_retryable]
    · simp [embed, retry_with_backoff, retry_go, embed_attempt, hk, is_retryable]
  · intro embedables hk
    simp [embed, retry_with_backoff, retry_go, embed_attempt, hk, is_retryable]

/-- Witness for C6 at a concrete client with and without credentials. -/
theorem embed_empty_fails_fast_witness :
    ((embed (fun _ _ => .error 500)
        { api_key := "k", task := "retrieval.query", max_retries := 3 } []).calls = 0)
    ∧ ((embed (fun _ _ => .error 500)
        { api_key := "", task := "retrieval.query", max_retries := 3 }
        [{ id := "i", text := some "t", pdf := none }]).calls = 0) :=
  ⟨((embed_empty_fails_fast (fun _ _ => .error 500)
      { api_key := "k", task := "retrieval.query", max_retries := 3 }).1).1,
   ((embed_empty_fails_fast (fun _ _ => .error 500)
      { api_key := "", task := "retrieval.query", max_retries := 3 }).2
      [{ id := "i", text := some "t", pdf := none }] rfl).1⟩

/-! ## Retrieval service (`retrieval_service.py`)

`RetrievalService.retrieve_chunks` composes the embedding service
(`generate_query_embeddings`), the ANN retriever and the reranker. The
embedding API and the single-vector store are oracles (`embed_queries`,
`vq`); the multi-vector store and PDF text extraction are the oracles
`store` and `extract_pdf`. The metadata `filter` is passed through to the
store verbatim and uninterpreted, so it is folded into the `vq` oracle. -/

/-- The parts of a query's `EmbeddingResult` the retrieval service reads:
`single_vector.embedding` and `multi_vectors.embeddings`. -/
structure QueryEmbedding where
  single : List ℝ
  multi : List (List ℝ)

/-- One formatted result chunk of `retrieve_chunks`. -/
structure PageChunk where
  chunk_id : String
  chunk_name : String
  score : ℝ
  chunk_text : String

/-- One per-query element of `retrieve_chunks`' output: the source appends the
bare list `[]` for a query with no candidates, and a
`{'query': ..., 'chunks': ...}` dict otherwise. -/
inductive QueryChunks where
  | noCandidates
  | result (query : String) (chunks : List PageChunk)

/-- Embedding of `top_k_ann or settings.default_top_k_ann` — Python `or` replaces both
`None` and `0` (falsy) by the default. -/
def resolve_top_k (arg : Option ℕ) (dflt : ℕ) : ℕ :=
  match arg with
  | none => dflt
  | some n => if n = 0 then dflt else n

/-- The per-result formatting of the inner loop of `retrieve_chunks`
(chunk_id, chunk_name, score, chunk_text, with PDF text extraction when
`force_pdf_to_text` is set and the chunk's source is a PDF). -/
def formatChunk (force_pdf_to_text : Bool) (extract_pdf : String → String)
    (c : Candidate) : PageChunk :=
  { chunk_id := c.chunk_id,
    chunk_name := c.metadata.chunk_name,
    score := c.score,
    chunk_text :=
      if force_pdf_to_text && decide (c.metadata.chunk_source = some "pdf") then
        extract_pdf c.chunk_id
      else c.metadata.chunk_text }

/-- The per-query body of `retrieve_chunks`' result loop: an empty candidate
list appends the bare `[]`; otherwise the candidates are optionally reranked
with the query's multi-vector (falling back to the single vector when the
multi-vector list is empty) and truncated, and each final result is
formatted. -/
noncomputable def process_one_query (use_reranking force_pdf_to_text : Bool)
    (store : String → Option (List (List ℝ))) (extract_pdf : String → String)
    (top_k_ann top_k_rerank : ℕ) (query : String) (qe : QueryEmbedding)
    (candidates : List Candidate) : QueryChunks :=
  match candidates with
  | [] => .noCandidates
  | c :: cs =>
    let final :=
      if use_reranking then
        let qmv := match qe.multi with
          | [] => [qe.single]
          | m => m
        (rerank qmv store (c :: cs)).take top_k_rerank
      else (c :: cs).take top_k_ann
    .result query (final.map (formatChunk force_pdf_to_text extract_pdf))

/-- The `for query_idx, query_embedding_result in enumerate(...)` loop of
`retrieve_chunks`, with `i` the running index; out-of-range candidate lists
read as `[]` (`if query_idx < len(all_candidates) else []`). -/
noncomputable def retrieve_loop (use_reranking force_pdf_to_text : Bool)
    (store : String → Option (List (List ℝ))) (extract_pdf : String → String)
    (top_k_ann top_k_rerank : ℕ) (queries : List String)
    (all_candidates : List (List Candidate)) :
    List QueryEmbedding → ℕ → List QueryChunks
  | [], _ => []
  | qe :: rest, i =>
    process_one_query use_reranking force_pdf_to_text store extract_pdf
        top_k_ann top_k_rerank (queries.getD i "") qe (all_candidates.getD i [])
      :: retrieve_loop use_reranking force_pdf_to_text store extract_pdf
          top_k_ann top_k_rerank queries all_candidates rest (i + 1)

/-- Embedding of `EmbeddingService.generate_query_embeddings`: non-empty query list,
embed via the client (oracle `embed_queries`), and insist on one embedding
result per query. -/
def generate_query_embeddings
    (embed_queries : List String → Except String (List QueryEmbedding))
    (queries : List String) : Except String (List QueryEmbedding) :=
  match queries with
  | [] => .error "queries list must not be empty"
  | _ :: _ =>
    match embed_queries queries with
    | .error e => .error e
    | .ok rs =>
      if rs.length = queries.length then .ok rs
      else .error "embedding result count mismatch"

/-- Embedding of `ANNRetriever.retrieve`: reject an empty query-vector list, otherwise one
batched store query (oracle `vq`). -/
def ann_retrieve (vq : List (List ℝ) → ℕ → Except String (List (List Candidate)))
    (query_vectors : List (List ℝ)) (top_k : ℕ) :
    Except String (List (List Candidate)) :=
  match query_vectors with
  | [] => .error "query_vectors list must not be empty"
  | _ :: _ => vq query_vectors top_k

/-- Embedding of `RetrievalService.retrieve_chunks`: non-empty queries, resolve top-k
defaults, batch-embed, batch ANN search, then the per-query loop. -/
noncomputable def retrieve_chunks
    (embed_queries : List String → Except String (List QueryEmbedding))
    (vq : List (List ℝ) → ℕ → Except String (List (List Candidate)))
    (store : String → Option (List (List ℝ))) (extract_pdf : String → String)
    (default_top_k_ann default_top_k_rerank : ℕ)
    (queries : List String) (top_k_ann top_k_rerank : Option ℕ)
    (use_reranking force_pdf_to_text : Bool) : Except String (List QueryChunks) :=
  match queries with
  | [] => .error "queries list must not be empty"
  | _ :: _ =>
    let ka := resolve_top_k top_k_ann default_top_k_ann
    let kr := resolve_top_k top_k_rerank default_top_k_rerank
    match generate_query_embeddings embed_queries queries with
    | .error e => .error e
    | .ok rs =>
      match ann_retrieve vq (rs.map QueryEmbedding.single) ka with
      | .error e => .error e
      | .ok all_candidates =>
        .ok (retrieve_loop use_reranking force_pdf_to_text store extract_pdf
          ka kr queries all_candidates rs 0)

theorem retrieve_loop_length (ur fp : Bool) (store : String → Option (List (List ℝ)))
    (xp : String → String) (ka kr : ℕ) (queries : List String)
    (ac : List (List Candidate)) :
    ∀ (rs : List QueryEmbedding) (i : ℕ),
      (retrieve_loop ur fp store xp ka kr queries ac rs i).length = rs.length := by
  intro rs
  induction rs with
  | nil => intro i; rfl
  | cons qe rest ih =>
    intro i
    simp [retrieve_loop, ih]

theorem retrieve_loop_get (ur fp : Bool) (store : String → Option (List (List ℝ)))
    (xp : String → String) (ka kr : ℕ) (queries : List String)
    (ac : List (List Candidate)) :
    ∀ (rs : List QueryEmbedding) (i0 j : ℕ)
      (h : j < (retrieve_loop ur fp store xp ka kr queries ac rs i0).length)
      (h' : j < rs.length),
      (retrieve_loop ur fp store xp ka kr queries ac rs i0).get ⟨j, h⟩
        = process_one_query ur fp store xp ka kr
            (queries.getD (i0 + j) "") (rs.get ⟨j, h'⟩) (ac.getD (i0 + j) []) := by
  intro rs
  induction rs with
  | nil => intro i0 j h h'; cases h'
  | cons qe rest ih =>
    intro i0 j h h'
    cases j with
    | zero => simp [retrieve_loop]
    | succ j' =>
      have hj : i0 + 1 + j' = i0 + (j' + 1) := by omega
      simp only [retrieve_loop, List.get_cons_succ]
      rw [ih (i0 + 1) j' _ (by simpa using h'), hj]

/-- Full characterization of a successful `retrieve_chunks` run (helper shared
by the per-claim theorems). -/
theorem retrieve_chunks_ok_char
    (embed_queries : List String → Except String (List QueryEmbedding))
    (vq : List (List ℝ) → ℕ → Except String (List (List Candidate)))
    (store : String → Option (List (List ℝ))) (extract_pdf : String → String)
    (dka dkr : ℕ) (queries : List String) (tka tkr : Option ℕ) (ur fp : Bool)
    (rs : List QueryEmbedding) (ac : List (List Candidate))
    (out : List QueryChunks)
    (hq : queries ≠ [])
    (hemb : embed_queries queries = .ok rs)
    (hlen : rs.length = queries.length)
    (hann : vq (rs.map QueryEmbedding.single) (resolve_top_k tka dka) = .ok ac)
    (hout : retrieve_chunks embed_queries vq store extract_pdf dka dkr
      queries tka tkr ur fp = .ok out) :
    out = retrieve_loop ur fp store extract_pdf
      (resolve_top_k tka dka) (resolve_top_k tkr dkr) queries ac rs 0 := by
  cases queries with
  | nil => exact absurd rfl hq
  | cons q qs =>
    cases rs with
    | nil => simp at hlen
    | cons r rs' =>
      rw [retrieve_chunks, generate_query_embeddings, hemb] at hout
      simp only [hlen, if_true, List.map_cons, ann_retrieve] at hout
      simp only [List.map_cons] at hann
      rw [hann] at hout
      simpa using hout.symm

/-- C2: for every non-empty query list, a successful `retrieve_chunks` run
returns one element per input query, in input order: the i-th output element
is the per-query result computed for the i-th query (with that query's
embedding and candidate set). -/
theorem retrieve_chunks_length_order
    (embed_queries : List String → Except String (List QueryEmbedding))
    (vq : List (List ℝ) → ℕ → Except String (List (List Candidate)))
    (store : String → Option (List (List ℝ))) (extract_pdf : String → String)
    (dka dkr : ℕ) (queries : List String) (tka tkr : Option ℕ) (ur fp : Bool)
    (rs : List QueryEmbedding) (ac : List (List Candidate))
    (out : List QueryChunks)
    (hq : queries ≠ [])
    (hemb : embed_queries queries = .ok rs)
    (hlen : rs.length = queries.length)
    (hann : vq (rs.map QueryEmbedding.single) (resolve_top_k tka dka) = .ok ac)
    (hout : retrieve_chunks embed_queries vq store extract_pdf dka dkr
      queries tka tkr ur fp = .ok out) :
    out.length = queries.length
    ∧ ∀ (i : ℕ) (h : i < out.length),
        out.get ⟨i, h⟩ = process_one_query ur fp store extract_pdf
          (resolve_top_k tka dka) (resolve_top_k tkr dkr)
          (queries.getD i "") (rs.getD i ⟨[], []⟩) (ac.getD i []) := by
  have hchar := retrieve_chunks_ok_char embed_queries vq store extract_pdf
    dka dkr queries tka tkr ur fp rs ac out hq hemb hlen hann hout
  subst hchar
  refine ⟨by rw [retrieve_loop_length, hlen], ?_⟩
  intro i h
  have hi : i < rs.length := by
    have := retrieve_loop_length ur fp store extract_pdf
      (resolve_top_k tka dka) (resolve_top_k tkr dkr) queries ac rs 0
    omega
  rw [retrieve_loop_get ur fp store extract_pdf _ _ queries ac rs 0 i h hi]
  simp [List.getD_eq_getElem?_getD, List.getElem?_eq_getElem hi]

/-- Witness for C2 on a concrete one-query pipeline. -/
theorem retrieve_chunks_length_order_witness :
    (retrieve_loop true true (fun _ => none) (fun _ => "") 10 5
        ["q"] [[]] [⟨[1], [[1]]⟩] 0).length = (["q"] : List String).length :=
  (retrieve_chunks_length_order (fun _ => .ok [⟨[1], [[1]]⟩]) (fun _ _ => .ok [[]])
    (fun _ => none) (fun _ => "") 10 5 ["q"] none none true true
    [⟨[1], [[1]]⟩] [[]]
    (retrieve_loop true true (fun _ => none) (fun _ => "") 10 5
      ["q"] [[]] [⟨[1], [[1]]⟩] 0)
    (by simp) rfl rfl rfl
    (by rw [retrieve_chunks, generate_query_embeddings]
        simp only [ann_retrieve, List.map_cons]
        rfl)).1

/-- C7: in a successful `retrieve_chunks` run over a non-empty query list, a
query whose ANN search returned no candidates yields the empty element for its
position (no error is raised), and every other query's element is still its
own per-query result. -/
theorem retrieve_chunks_empty_candidates
    (embed_queries : List String → Except String (List QueryEmbedding))
    (vq : List (List ℝ) → ℕ → Except String (List (List Candidate)))
    (store : String → Option (List (List ℝ))) (extract_pdf : String → String)
    (dka dkr : ℕ) (queries : List String) (tka tkr : Option ℕ) (ur fp : Bool)
    (rs : List QueryEmbedding) (ac : List (List Candidate))
    (out : List QueryChunks) (i : ℕ)
    (hq : queries ≠ [])
    (hemb : embed_queries queries = .ok rs)
    (hlen : rs.length = queries.length)
    (hann : vq (rs.map QueryEmbedding.single) (resolve_top_k tka dka) = .ok ac)
    (hout : retrieve_chunks embed_queries vq store extract_pdf dka dkr
      queries tka tkr ur fp = .ok out)
    (hi : ac.getD i [] = []) :
    (∀ (h : i < out.length), out.get ⟨i, h⟩ = QueryChunks.noCandidates)
    ∧ ∀ (j : ℕ) (h : j < out.length), j ≠ i →
        out.get ⟨j, h⟩ = process_one_query ur fp store extract_pdf
          (resolve_top_k tka dka) (resolve_top_k tkr dkr)
          (queries.getD j "") (rs.getD j ⟨[], []⟩) (ac.getD j []) := by
  have hchar := retrieve_chunks_ok_char embed_queries vq store extract_pdf
    dka dkr queries tka tkr ur fp rs ac out hq hemb hlen hann hout
  subst hchar
  have hL := retrieve_loop_length ur fp store extract_pdf
    (resolve_top_k tka dka) (resolve_top_k tkr dkr) queries ac rs 0
  constructor
  · intro h
    have hi' : i < rs.length := by omega
    rw [retrieve_loop_get ur fp store extract_pdf _ _ queries ac rs 0 i h hi']
    simp only [Nat.zero_add, hi]
    rfl
  · intro j h _
    have hj : j < rs.length := by omega
    rw [retrieve_loop_get ur fp store extract_pdf _ _ queries ac rs 0 j h hj]
    simp [List.getD_eq_getElem?_getD, List.getElem?_eq_getElem hj]

/-- Witness for C7 on a two-query pipeline whose second query has no ANN
candidates. -/
theorem retrieve_chunks_empty_candidates_witness :
    (retrieve_loop true true (fun _ => none) (fun _ => "") 10 5
      ["a", "b"] [[⟨"c", 1, ⟨"n", "t", none, []⟩⟩], []]
      [⟨[1], [[1]]⟩, ⟨[2], [[2]]⟩] 0)[1]? = some QueryChunks.noCandidates := by
  have h1 : 1 < (retrieve_loop true true (fun _ => none) (fun _ => "") 10 5
      ["a", "b"] [[⟨"c", 1, ⟨"n", "t", none, []⟩⟩], []]
      [⟨[1], [[1]]⟩, ⟨[2], [[2]]⟩] 0).length := by
    rw [retrieve_loop_length]
    simp
  have hmain := (retrieve_chunks_empty_candidates
    (fun _ => .ok [⟨[1], [[1]]⟩, ⟨[2], [[2]]⟩])
    (fun _ _ => .ok [[⟨"c", 1, ⟨"n", "t", none, []⟩⟩], []])
    (fun _ => none) (fun _ => "") 10 5 ["a", "b"] none none true true
    [⟨[1], [[1]]⟩, ⟨[2], [[2]]⟩] [[⟨"c", 1, ⟨"n", "t", none, []⟩⟩], []]
    (retrieve_loop true true (fun _ => none) (fun _ => "") 10 5
      ["a", "b"] [[⟨"c", 1, ⟨"n", "t", none, []⟩⟩], []]
      [⟨[1], [[1]]⟩, ⟨[2], [[2]]⟩] 0) 1
    (by simp) rfl rfl rfl
    (by rw [retrieve_chunks, generate_query_embeddings]
        simp only [ann_retrieve, List.map_cons]
        rfl)
    rfl).1 h1
  rw [List.getElem?_eq_getElem h1]
  exact congrArg some hmain

end RagMM
